import Mathlib

/-!
Shallow embedding of the payments replay engine in `src/main.rs`.

The source keeps monetary values as `u64` fixed-point integers (1/10000ths of a
currency unit).  Balances are modelled as `Int` so that the non-negativity
invariant of the spec is a genuine statement about the guarded transitions
rather than a typing artifact; event amounts, which the source reads as `u64`,
are modelled as `Nat` and coerced.  The two `BTreeMap`s are modelled as
association lists with replace-on-insert semantics matching `BTreeMap::insert`.
-/

/-- Mirror of the Rust `AccountActions` enum. -/
inductive AccountActions : Type
  | Withdrawal
  | Deposit
  | Dispute
  | ChargeBack
  | Resolve
deriving DecidableEq, Repr

/-- Mirror of the Rust `ClientAccount` struct: `id : u16`, `available held : u64`,
`locked : bool`.  Balances are `Int` (see the module comment). -/
structure ClientAccount : Type where
  id : Nat
  available : Int
  held : Int
  locked : Bool
deriving DecidableEq, Repr

/-- Mirror of `ClientAccount::new`. -/
def ClientAccount.new (id : Nat) (deposit : Int) : ClientAccount :=
  { id := id, available := deposit, held := 0, locked := false }

/-- Mirror of `ClientAccount::withdraw`: no-op when locked or when the amount
exceeds `available`, otherwise `available -= amount`. -/
def ClientAccount.withdraw (a : ClientAccount) (amount : Nat) : ClientAccount :=
  if a.locked then a
  else if (amount : Int) > a.available then a
  else { a with available := a.available - (amount : Int) }

/-- Mirror of `ClientAccount::dispute`: no lock check; no-op when the amount
exceeds `available`, otherwise moves the amount from `available` to `held`. -/
def ClientAccount.dispute (a : ClientAccount) (amount : Nat) : ClientAccount :=
  if (amount : Int) > a.available then a
  else { a with available := a.available - (amount : Int),
                held := a.held + (amount : Int) }

/-- Mirror of `ClientAccount::deposit`: no-op when locked, otherwise
`available += amount`. -/
def ClientAccount.deposit (a : ClientAccount) (amount : Nat) : ClientAccount :=
  if a.locked then a
  else { a with available := a.available + (amount : Int) }

/-- Mirror of `ClientAccount::charge_back`: no-op when `held == 0` or
`held < amount`, otherwise `held -= amount` and the account is locked. -/
def ClientAccount.charge_back (a : ClientAccount) (amount : Nat) : ClientAccount :=
  if a.held = 0 ∨ a.held < (amount : Int) then a
  else { a with held := a.held - (amount : Int), locked := true }

/-- Mirror of `ClientAccount::resolve`: no-op when `held == 0` or
`held < amount`, otherwise `held -= amount`, `available += amount` and the
lock is cleared unconditionally. -/
def ClientAccount.resolve (a : ClientAccount) (amount : Nat) : ClientAccount :=
  if a.held = 0 ∨ a.held < (amount : Int) then a
  else { a with held := a.held - (amount : Int),
                available := a.available + (amount : Int),
                locked := false }

/-- Mirror of the Rust `AccountEvent` struct (`transaction_id : i32`,
`client_id : u16`, `amount : Option u64`). -/
structure AccountEvent : Type where
  transaction_id : Int
  action_type : AccountActions
  client_id : Nat
  amount : Option Nat
deriving DecidableEq, Repr

/-- Lookup in an association list modelling `BTreeMap::get`. -/
def lookupMap {α β : Type} [DecidableEq α] (m : List (α × β)) (k : α) : Option β :=
  match m with
  | [] => none
  | (k1, v) :: rest => if k1 = k then some v else lookupMap rest k

/-- Insert into an association list modelling `BTreeMap::insert`: replaces the
value when the key is present, appends otherwise. -/
def insertMap {α β : Type} [DecidableEq α] (m : List (α × β)) (k : α) (v : β) :
    List (α × β) :=
  match m with
  | [] => [(k, v)]
  | (k1, v1) :: rest =>
      if k1 = k then (k, v) :: rest else (k1, v1) :: insertMap rest k v

/-- Mirror of the Rust `AccountProcessing` struct: the account store keyed by
client id and the transaction ledger keyed by transaction id. -/
structure AccountProcessing : Type where
  accounts : List (Nat × ClientAccount)
  transaction_amount : List (Int × Nat)
deriving DecidableEq, Repr

/-- The engine state at startup: both maps empty. -/
def AccountProcessing.init : AccountProcessing :=
  { accounts := [], transaction_amount := [] }

/-- Mirror of `AccountProcessing::event_needs_transaction_lookup`. -/
def event_needs_transaction_lookup (a : AccountActions) : Bool :=
  a = AccountActions.ChargeBack ∨ a = AccountActions.Resolve ∨
    a = AccountActions.Dispute

/-- Mirror of `AccountProcessing::dispute_action_with_invalid_transaction`: a
lookup-required event whose transaction id has no ledger entry. -/
def AccountProcessing.dispute_action_with_invalid_transaction
    (s : AccountProcessing) (e : AccountEvent) : Bool :=
  event_needs_transaction_lookup e.action_type &&
    (lookupMap s.transaction_amount e.transaction_id).isNone

/-- Mirror of `AccountProcessing::apply`: dispatch on the action type, with the
Rust `amount.unwrap_or(0)` becoming `Option.getD 0`. -/
def AccountProcessing.apply (a : ClientAccount) (e : AccountEvent) : ClientAccount :=
  match e.action_type with
  | AccountActions.Withdrawal => a.withdraw (e.amount.getD 0)
  | AccountActions.Deposit => a.deposit (e.amount.getD 0)
  | AccountActions.Dispute => a.dispute (e.amount.getD 0)
  | AccountActions.ChargeBack => a.charge_back (e.amount.getD 0)
  | AccountActions.Resolve => a.resolve (e.amount.getD 0)

/-- First half of `AccountProcessing::process_event`: when the client id is
unseen, insert a fresh account (`ClientAccount::new(client_id, 0)`). -/
def AccountProcessing.ensure_account (s : AccountProcessing) (cid : Nat) :
    AccountProcessing :=
  if (lookupMap s.accounts cid).isSome then s
  else
    let accts0 := insertMap s.accounts cid (ClientAccount.new cid 0)
    { s with accounts := accts0 }

/-- The `get_mut` in `AccountProcessing::process_event`: after
`ensure_account` the lookup always succeeds, so the default is never used. -/
def AccountProcessing.client_account (s : AccountProcessing) (cid : Nat) :
    ClientAccount :=
  (lookupMap s.accounts cid).getD (ClientAccount.new cid 0)

/-- Mirror of `AccountProcessing::process_event`: create the account when the
client is unseen, substitute the ledger amount for lookup-required events
(dropping the event when the ledger has no entry), and dispatch to `apply`. -/
def AccountProcessing.process_event (s : AccountProcessing) (e : AccountEvent) :
    AccountProcessing :=
  let s1 : AccountProcessing := s.ensure_account e.client_id
  let client_account : ClientAccount := s1.client_account e.client_id
  if event_needs_transaction_lookup e.action_type then
    match lookupMap s1.transaction_amount e.transaction_id with
    | none => s1
    | some amount =>
        let new_event : AccountEvent :=
          { transaction_id := e.transaction_id, action_type := e.action_type,
            client_id := e.client_id, amount := some amount }
        let acct1 := AccountProcessing.apply client_account new_event
        { s1 with accounts := insertMap s1.accounts e.client_id acct1 }
  else
    let acct2 := AccountProcessing.apply client_account e
    { s1 with accounts := insertMap s1.accounts e.client_id acct2 }

/-- Body of the per-record closure in `AccountProcessing::run`: drop invalid
lookup events, process the event, then record deposit/withdrawal amounts in
the transaction ledger (`amount.unwrap_or(0)`), unconditionally. -/
def AccountProcessing.runStep (s : AccountProcessing) (e : AccountEvent) :
    AccountProcessing :=
  if s.dispute_action_with_invalid_transaction e then s
  else
    let s1 := s.process_event e
    if event_needs_transaction_lookup e.action_type then s1
    else
      let ledger1 := insertMap s1.transaction_amount e.transaction_id (e.amount.getD 0)
      { s1 with transaction_amount := ledger1 }

/-- The event loop of `AccountProcessing::run` over a finite stream. -/
def AccountProcessing.runEvents (s : AccountProcessing) (events : List AccountEvent) :
    AccountProcessing :=
  events.foldl AccountProcessing.runStep s

/-- Every stored account has non-negative `available` and `held`; this is the
balance invariant of the spec, stated over the `Int`-valued model. -/
def AccountsNonneg (s : AccountProcessing) : Prop :=
  ∀ c acct, lookupMap s.accounts c = some acct →
    0 ≤ acct.available ∧ 0 ≤ acct.held

/-! ### Helper lemmas about the association-list maps and the step function -/

theorem lookupMap_insertMap {α β : Type} [DecidableEq α] (m : List (α × β))
    (k c : α) (v : β) :
    lookupMap (insertMap m k v) c = if k = c then some v else lookupMap m c := by
  induction m with
  | nil => simp [insertMap, lookupMap]
  | cons p rest ih =>
    obtain ⟨k1, v1⟩ := p
    by_cases h1 : k1 = k
    · subst h1
      by_cases h2 : k1 = c
      · subst h2; simp [insertMap, lookupMap]
      · simp [insertMap, lookupMap, h2]
    · by_cases h2 : k1 = c
      · subst h2
        have hkc : ¬ k = k1 := fun h => h1 h.symm
        simp [insertMap, lookupMap, h1, hkc]
      · simp [insertMap, lookupMap, h1, h2, ih]

theorem needs_lookup_false_iff (a : AccountActions) :
    event_needs_transaction_lookup a = false ↔
      (a = AccountActions.Deposit ∨ a = AccountActions.Withdrawal) := by
  cases a <;> simp [event_needs_transaction_lookup]

theorem ensure_account_transaction_amount (s : AccountProcessing) (cid : Nat) :
    (s.ensure_account cid).transaction_amount = s.transaction_amount := by
  unfold AccountProcessing.ensure_account
  split
  · rfl
  · rfl

theorem lookup_ensure_account (s : AccountProcessing) (cid c : Nat) :
    lookupMap (s.ensure_account cid).accounts c =
      if c = cid then some (s.client_account cid) else lookupMap s.accounts c := by
  unfold AccountProcessing.ensure_account AccountProcessing.client_account
  by_cases hc : c = cid
  · subst hc
    cases hl : lookupMap s.accounts c with
    | none => simp [hl, lookupMap_insertMap]
    | some acct => simp [hl]
  · cases hl : lookupMap s.accounts cid with
    | none =>
        have hcc : ¬ cid = c := fun h => hc h.symm
        simp [hl, lookupMap_insertMap, hc, hcc]
    | some acct => simp [hl, hc]

theorem process_event_transaction_amount (s : AccountProcessing) (e : AccountEvent) :
    (s.process_event e).transaction_amount = s.transaction_amount := by
  unfold AccountProcessing.process_event
  dsimp only
  split
  · split
    · exact ensure_account_transaction_amount s e.client_id
    · exact ensure_account_transaction_amount s e.client_id
  · exact ensure_account_transaction_amount s e.client_id

theorem runStep_of_invalid (s : AccountProcessing) (e : AccountEvent)
    (h : s.dispute_action_with_invalid_transaction e = true) :
    s.runStep e = s := by
  unfold AccountProcessing.runStep
  simp [h]

theorem runStep_transaction_amount (s : AccountProcessing) (e : AccountEvent) :
    (s.runStep e).transaction_amount =
      if event_needs_transaction_lookup e.action_type then s.transaction_amount
      else insertMap s.transaction_amount e.transaction_id (e.amount.getD 0) := by
  unfold AccountProcessing.runStep
  by_cases hinv : s.dispute_action_with_invalid_transaction e = true
  · have hl : event_needs_transaction_lookup e.action_type = true := by
      have := hinv
      unfold AccountProcessing.dispute_action_with_invalid_transaction at this
      exact (Bool.and_eq_true _ _).mp this |>.1
    simp [hinv, hl]
  · simp only [hinv, Bool.false_eq_true, if_false]
    by_cases hl : event_needs_transaction_lookup e.action_type = true
    · simp [hl, process_event_transaction_amount]
    · simp only [Bool.not_eq_true] at hl
      simp [hl, process_event_transaction_amount]

theorem runEvents_cons (s : AccountProcessing) (e : AccountEvent)
    (evs : List AccountEvent) :
    AccountProcessing.runEvents s (e :: evs) =
      AccountProcessing.runEvents (s.runStep e) evs := rfl

theorem runEvents_append (s : AccountProcessing) (evs1 evs2 : List AccountEvent) :
    AccountProcessing.runEvents s (evs1 ++ evs2) =
      AccountProcessing.runEvents (AccountProcessing.runEvents s evs1) evs2 :=
  List.foldl_append _ _ _ _

theorem runStep_ledger_isSome (s : AccountProcessing) (e : AccountEvent) (t : Int) :
    (lookupMap (s.runStep e).transaction_amount t).isSome = true ↔
      ((lookupMap s.transaction_amount t).isSome = true ∨
        (event_needs_transaction_lookup e.action_type = false ∧
          e.transaction_id = t)) := by
  rw [runStep_transaction_amount]
  by_cases hl : event_needs_transaction_lookup e.action_type = true
  · simp [hl]
  · simp only [Bool.not_eq_true] at hl
    simp only [hl, Bool.false_eq_true, if_false, lookupMap_insertMap]
    by_cases ht : e.transaction_id = t
    · simp [ht]
    · simp [ht]

theorem runEvents_ledger_isSome (evs : List AccountEvent) (s : AccountProcessing)
    (t : Int) :
    (lookupMap (AccountProcessing.runEvents s evs).transaction_amount t).isSome = true ↔
      ((lookupMap s.transaction_amount t).isSome = true ∨
        ∃ e, e ∈ evs ∧ event_needs_transaction_lookup e.action_type = false ∧
          e.transaction_id = t) := by
  induction evs generalizing s with
  | nil => simp [AccountProcessing.runEvents]
  | cons e evs ih =>
    rw [runEvents_cons, ih, runStep_ledger_isSome]
    constructor
    · rintro ((h | h) | ⟨e1, he1, h1, h2⟩)
      · exact Or.inl h
      · exact Or.inr ⟨e, List.mem_cons_self e evs, h.1, h.2⟩
      · exact Or.inr ⟨e1, List.mem_cons_of_mem e he1, h1, h2⟩
    · rintro (h | ⟨e1, he1, h1, h2⟩)
      · exact Or.inl (Or.inl h)
      · rcases List.mem_cons.mp he1 with h3 | h3
        · subst h3; exact Or.inl (Or.inr ⟨h1, h2⟩)
        · exact Or.inr ⟨e1, h3, h1, h2⟩

theorem process_event_drop (s : AccountProcessing) (e : AccountEvent)
    (hl : event_needs_transaction_lookup e.action_type = true)
    (ht : lookupMap s.transaction_amount e.transaction_id = none) :
    s.process_event e = s.ensure_account e.client_id := by
  unfold AccountProcessing.process_event
  dsimp only
  rw [ensure_account_transaction_amount]
  simp [hl, ht]

theorem process_event_subst (s : AccountProcessing) (e : AccountEvent)
    (amount : Nat)
    (hl : event_needs_transaction_lookup e.action_type = true)
    (ht : lookupMap s.transaction_amount e.transaction_id = some amount) :
    s.process_event e =
      { accounts :=
          insertMap (s.ensure_account e.client_id).accounts e.client_id
            (AccountProcessing.apply (s.client_account e.client_id)
              { transaction_id := e.transaction_id, action_type := e.action_type,
                client_id := e.client_id, amount := some amount }),
        transaction_amount := s.transaction_amount } := by
  have hca : (s.ensure_account e.client_id).client_account e.client_id =
      s.client_account e.client_id := by
    show (lookupMap (s.ensure_account e.client_id).accounts e.client_id).getD
        (ClientAccount.new e.client_id 0) = s.client_account e.client_id
    rw [lookup_ensure_account, if_pos rfl]
    rfl
  unfold AccountProcessing.process_event
  dsimp only
  rw [ensure_account_transaction_amount, hca]
  simp only [hl, if_true, ht]

theorem process_event_direct (s : AccountProcessing) (e : AccountEvent)
    (hl : event_needs_transaction_lookup e.action_type = false) :
    s.process_event e =
      { accounts :=
          insertMap (s.ensure_account e.client_id).accounts e.client_id
            (AccountProcessing.apply (s.client_account e.client_id) e),
        transaction_amount := s.transaction_amount } := by
  have hca : (s.ensure_account e.client_id).client_account e.client_id =
      s.client_account e.client_id := by
    show (lookupMap (s.ensure_account e.client_id).accounts e.client_id).getD
        (ClientAccount.new e.client_id 0) = s.client_account e.client_id
    rw [lookup_ensure_account, if_pos rfl]
    rfl
  unfold AccountProcessing.process_event
  dsimp only
  rw [hca]
  simp only [hl, Bool.false_eq_true, if_false]
  rw [ensure_account_transaction_amount]

theorem apply_nonneg (a : ClientAccount) (e : AccountEvent)
    (h1 : 0 ≤ a.available) (h2 : 0 ≤ a.held) :
    0 ≤ (AccountProcessing.apply a e).available ∧
      0 ≤ (AccountProcessing.apply a e).held := by
  obtain ⟨tx, act, cid, amt⟩ := e
  cases act <;>
    simp only [AccountProcessing.apply, ClientAccount.withdraw,
      ClientAccount.deposit, ClientAccount.dispute, ClientAccount.charge_back,
      ClientAccount.resolve] <;>
    split_ifs <;> constructor <;> dsimp only <;> omega

theorem accountsNonneg_insert
    (m : List (Nat × ClientAccount)) (k : Nat) (v : ClientAccount)
    (hm : ∀ c acct, lookupMap m c = some acct →
      0 ≤ acct.available ∧ 0 ≤ acct.held)
    (hv : 0 ≤ v.available ∧ 0 ≤ v.held) :
    ∀ c acct, lookupMap (insertMap m k v) c = some acct →
      0 ≤ acct.available ∧ 0 ≤ acct.held := by
  intro c acct hl
  rw [lookupMap_insertMap] at hl
  by_cases hkc : k = c
  · rw [if_pos hkc] at hl
    cases hl
    exact hv
  · rw [if_neg hkc] at hl
    exact hm c acct hl

theorem ensure_account_nonneg (s : AccountProcessing) (cid : Nat)
    (h : AccountsNonneg s) : AccountsNonneg (s.ensure_account cid) := by
  intro c acct hl
  rw [lookup_ensure_account] at hl
  by_cases hc : c = cid
  · rw [if_pos hc] at hl
    cases hl
    unfold AccountProcessing.client_account
    cases hl2 : lookupMap s.accounts cid with
    | none => simp [hl2, ClientAccount.new]
    | some a0 =>
        have := h cid a0 hl2
        simpa [hl2] using this
  · rw [if_neg hc] at hl
    exact h c acct hl

theorem client_account_nonneg (s : AccountProcessing) (cid : Nat)
    (h : AccountsNonneg s) :
    0 ≤ (s.client_account cid).available ∧ 0 ≤ (s.client_account cid).held := by
  unfold AccountProcessing.client_account
  cases hl : lookupMap s.accounts cid with
  | none => simp [hl, ClientAccount.new]
  | some a0 =>
      have := h cid a0 hl
      simpa [hl] using this

theorem process_event_nonneg (s : AccountProcessing) (e : AccountEvent)
    (h : AccountsNonneg s) : AccountsNonneg (s.process_event e) := by
  have hens : AccountsNonneg (s.ensure_account e.client_id) :=
    ensure_account_nonneg s e.client_id h
  have hca := client_account_nonneg s e.client_id h
  by_cases hl : event_needs_transaction_lookup e.action_type = true
  · cases ht : lookupMap s.transaction_amount e.transaction_id with
    | none => rw [process_event_drop s e hl ht]; exact hens
    | some amount =>
        rw [process_event_subst s e amount hl ht]
        exact accountsNonneg_insert _ _ _ hens (apply_nonneg _ _ hca.1 hca.2)
  · simp only [Bool.not_eq_true] at hl
    rw [process_event_direct s e hl]
    exact accountsNonneg_insert _ _ _ hens (apply_nonneg _ _ hca.1 hca.2)

theorem runStep_accounts (s : AccountProcessing) (e : AccountEvent) :
    (s.runStep e).accounts = s.accounts ∨
      (s.runStep e).accounts = (s.process_event e).accounts := by
  unfold AccountProcessing.runStep
  by_cases hinv : s.dispute_action_with_invalid_transaction e = true
  · left; simp [hinv]
  · right
    simp only [hinv, Bool.false_eq_true, if_false]
    by_cases hl : event_needs_transaction_lookup e.action_type = true
    · simp [hl]
    · simp only [Bool.not_eq_true] at hl
      simp [hl]

theorem runStep_nonneg (s : AccountProcessing) (e : AccountEvent)
    (h : AccountsNonneg s) : AccountsNonneg (s.runStep e) := by
  rcases runStep_accounts s e with hacc | hacc <;>
    intro c acct hl <;> rw [hacc] at hl
  · exact h c acct hl
  · exact process_event_nonneg s e h c acct hl

theorem runEvents_nonneg (evs : List AccountEvent) (s : AccountProcessing)
    (h : AccountsNonneg s) : AccountsNonneg (AccountProcessing.runEvents s evs) := by
  induction evs generalizing s with
  | nil => exact h
  | cons e evs ih => exact ih (s.runStep e) (runStep_nonneg s e h)

theorem init_nonneg : AccountsNonneg AccountProcessing.init := by
  intro c acct h
  simp [AccountProcessing.init, lookupMap] at h

theorem withdraw_guard_noop (a : ClientAccount) (amt : Nat)
    (h : a.locked = true ∨ (amt : Int) > a.available) : a.withdraw amt = a := by
  unfold ClientAccount.withdraw
  split_ifs with h1 h2
  · rfl
  · rfl
  · rcases h with h | h
    · exact absurd h h1
    · exact absurd h h2

theorem withdraw_fields (a : ClientAccount) (amt : Nat)
    (h1 : a.locked = false) (h2 : (amt : Int) ≤ a.available) :
    (a.withdraw amt).available = a.available - (amt : Int) ∧
      (a.withdraw amt).held = a.held ∧ (a.withdraw amt).locked = a.locked ∧
      (a.withdraw amt).id = a.id := by
  unfold ClientAccount.withdraw
  rw [if_neg (by simp [h1]), if_neg (not_lt.mpr h2)]
  exact ⟨rfl, rfl, h1.symm ▸ rfl, rfl⟩

theorem dispute_guard_noop (a : ClientAccount) (amt : Nat)
    (h : (amt : Int) > a.available) : a.dispute amt = a := by
  unfold ClientAccount.dispute
  rw [if_pos h]

theorem dispute_fields (a : ClientAccount) (amt : Nat)
    (h : (amt : Int) ≤ a.available) :
    (a.dispute amt).available = a.available - (amt : Int) ∧
      (a.dispute amt).held = a.held + (amt : Int) ∧
      (a.dispute amt).locked = a.locked ∧ (a.dispute amt).id = a.id := by
  unfold ClientAccount.dispute
  rw [if_neg (not_lt.mpr h)]
  exact ⟨rfl, rfl, rfl, rfl⟩

theorem resolve_guard_noop (a : ClientAccount) (amt : Nat)
    (h : a.held = 0 ∨ a.held < (amt : Int)) : a.resolve amt = a := by
  unfold ClientAccount.resolve
  rw [if_pos h]

theorem resolve_fields (a : ClientAccount) (amt : Nat)
    (h : ¬(a.held = 0 ∨ a.held < (amt : Int))) :
    (a.resolve amt).available = a.available + (amt : Int) ∧
      (a.resolve amt).held = a.held - (amt : Int) ∧
      (a.resolve amt).locked = false ∧ (a.resolve amt).id = a.id := by
  unfold ClientAccount.resolve
  rw [if_neg h]
  exact ⟨rfl, rfl, rfl, rfl⟩

theorem charge_back_guard_noop (a : ClientAccount) (amt : Nat)
    (h : a.held = 0 ∨ a.held < (amt : Int)) : a.charge_back amt = a := by
  unfold ClientAccount.charge_back
  rw [if_pos h]

theorem charge_back_fields (a : ClientAccount) (amt : Nat)
    (h : ¬(a.held = 0 ∨ a.held < (amt : Int))) :
    (a.charge_back amt).available = a.available ∧
      (a.charge_back amt).held = a.held - (amt : Int) ∧
      (a.charge_back amt).locked = true ∧ (a.charge_back amt).id = a.id := by
  unfold ClientAccount.charge_back
  rw [if_neg h]
  exact ⟨rfl, rfl, rfl, rfl⟩

theorem apply_zero_amount (a : ClientAccount) (e : AccountEvent)
    (ham : e.amount = none)
    (hdw : e.action_type = AccountActions.Deposit ∨
      e.action_type = AccountActions.Withdrawal) :
    (AccountProcessing.apply a e).available = a.available ∧
      (AccountProcessing.apply a e).held = a.held ∧
      (AccountProcessing.apply a e).locked = a.locked ∧
      (AccountProcessing.apply a e).id = a.id := by
  obtain ⟨tx, act, cid, am⟩ := e
  simp only at ham hdw
  subst ham
  rcases hdw with h | h <;> subst h <;>
    simp only [AccountProcessing.apply, ClientAccount.deposit,
      ClientAccount.withdraw, Option.getD_none] <;>
    split_ifs <;> simp_all

theorem runStep_accounts_of_valid (s : AccountProcessing) (e : AccountEvent)
    (hinv : s.dispute_action_with_invalid_transaction e = false) :
    (s.runStep e).accounts = (s.process_event e).accounts := by
  unfold AccountProcessing.runStep
  simp only [hinv, Bool.false_eq_true, if_false]
  by_cases hl : event_needs_transaction_lookup e.action_type = true
  · simp [hl]
  · simp only [Bool.not_eq_true] at hl
    simp [hl]

/-! ### Claim theorems -/

/-- C1: for every client account and after every processed event stream,
`available` and `held` are non-negative; each debiting transition (withdraw,
dispute, resolve, chargeback) is guarded by a pre-check and, when the guard
fails, the transition is a no-op rather than a clamp, so no transition ever
produces a negative balance. -/
theorem C1_balances_nonneg :
    (∀ (events : List AccountEvent) (c : Nat) (acct : ClientAccount),
        lookupMap (AccountProcessing.runEvents AccountProcessing.init
          events).accounts c = some acct →
        0 ≤ acct.available ∧ 0 ≤ acct.held) ∧
    (∀ (a : ClientAccount) (amt : Nat),
        (a.locked = true ∨ (amt : Int) > a.available) → a.withdraw amt = a) ∧
    (∀ (a : ClientAccount) (amt : Nat),
        (amt : Int) > a.available → a.dispute amt = a) ∧
    (∀ (a : ClientAccount) (amt : Nat),
        (a.held = 0 ∨ a.held < (amt : Int)) → a.resolve amt = a) ∧
    (∀ (a : ClientAccount) (amt : Nat),
        (a.held = 0 ∨ a.held < (amt : Int)) → a.charge_back amt = a) := by
  refine ⟨?_, withdraw_guard_noop, dispute_guard_noop,
    resolve_guard_noop, charge_back_guard_noop⟩
  intro events c acct h
  exact runEvents_nonneg events AccountProcessing.init init_nonneg c acct h

theorem C1_witness :
    (0 ≤ ({ id := 1, available := 50000, held := 0, locked := false } :
        ClientAccount).available ∧
      0 ≤ ({ id := 1, available := 50000, held := 0, locked := false } :
        ClientAccount).held) ∧
    ({ id := 2, available := 5, held := 0, locked := true } :
        ClientAccount).withdraw 3 =
      { id := 2, available := 5, held := 0, locked := true } ∧
    ({ id := 2, available := 5, held := 0, locked := false } :
        ClientAccount).dispute 9 =
      { id := 2, available := 5, held := 0, locked := false } ∧
    ({ id := 2, available := 5, held := 0, locked := false } :
        ClientAccount).resolve 3 =
      { id := 2, available := 5, held := 0, locked := false } ∧
    ({ id := 2, available := 5, held := 0, locked := false } :
        ClientAccount).charge_back 3 =
      { id := 2, available := 5, held := 0, locked := false } :=
  ⟨C1_balances_nonneg.1
      [{ transaction_id := 1, action_type := AccountActions.Deposit,
         client_id := 1, amount := some 50000 }] 1
      { id := 1, available := 50000, held := 0, locked := false } (by decide),
    C1_balances_nonneg.2.1 _ 3 (Or.inl rfl),
    C1_balances_nonneg.2.2.1 _ 9 (by decide),
    C1_balances_nonneg.2.2.2.1 _ 3 (Or.inl rfl),
    C1_balances_nonneg.2.2.2.2 _ 3 (Or.inl rfl)⟩

/-- C2: after the replay engine processes any deposit or withdrawal event, the
pair (transaction id, amount) is in the TransactionLedger unconditionally,
whether or not the balance transition succeeded; and on a concrete stream a
later dispute of a rejected withdrawal still finds the amount and moves it
from `available` to `held`. -/
theorem C2_ledger_unconditional :
    (∀ (s : AccountProcessing) (e : AccountEvent),
        (e.action_type = AccountActions.Deposit ∨
          e.action_type = AccountActions.Withdrawal) →
        lookupMap (s.runStep e).transaction_amount e.transaction_id =
          some (e.amount.getD 0)) ∧
    lookupMap (AccountProcessing.runEvents AccountProcessing.init
        [{ transaction_id := 1, action_type := AccountActions.Deposit,
           client_id := 1, amount := some 1000000 },
         { transaction_id := 2, action_type := AccountActions.Withdrawal,
           client_id := 1, amount := some 2000000 }]).accounts 1 =
      some { id := 1, available := 1000000, held := 0, locked := false } ∧
    lookupMap (AccountProcessing.runEvents AccountProcessing.init
        [{ transaction_id := 1, action_type := AccountActions.Deposit,
           client_id := 1, amount := some 1000000 },
         { transaction_id := 2, action_type := AccountActions.Withdrawal,
           client_id := 1, amount := some 2000000 }]).transaction_amount 2 =
      some 2000000 ∧
    lookupMap (AccountProcessing.runEvents AccountProcessing.init
        [{ transaction_id := 1, action_type := AccountActions.Deposit,
           client_id := 1, amount := some 1000000 },
         { transaction_id := 2, action_type := AccountActions.Withdrawal,
           client_id := 1, amount := some 2000000 },
         { transaction_id := 3, action_type := AccountActions.Deposit,
           client_id := 1, amount := some 3000000 },
         { transaction_id := 2, action_type := AccountActions.Dispute,
           client_id := 1, amount := none }]).accounts 1 =
      some { id := 1, available := 2000000, held := 2000000, locked := false } := by
  refine ⟨?_, by decide, by decide, by decide⟩
  intro s e he
  have hl : event_needs_transaction_lookup e.action_type = false :=
    (needs_lookup_false_iff _).mpr he
  rw [runStep_transaction_amount, if_neg (by simp [hl]), lookupMap_insertMap,
    if_pos rfl]

theorem C2_witness :
    lookupMap (AccountProcessing.init.runStep
      { transaction_id := 7, action_type := AccountActions.Withdrawal,
        client_id := 3, amount := some 40000 }).transaction_amount 7 =
      some 40000 :=
  C2_ledger_unconditional.1 AccountProcessing.init
    { transaction_id := 7, action_type := AccountActions.Withdrawal,
      client_id := 3, amount := some 40000 } (Or.inr rfl)

/-- C4: a dispute, resolve, or chargeback event whose transaction id has never
appeared as a deposit or withdrawal earlier in the stream leaves the whole
engine state unchanged: no account is created or mutated and the
TransactionLedger is untouched. -/
theorem C4_unknown_reference_noop :
    ∀ (events : List AccountEvent) (e : AccountEvent),
      event_needs_transaction_lookup e.action_type = true →
      (∀ e1, e1 ∈ events →
        (e1.action_type = AccountActions.Deposit ∨
          e1.action_type = AccountActions.Withdrawal) →
        e1.transaction_id ≠ e.transaction_id) →
      AccountProcessing.runEvents AccountProcessing.init (events ++ [e]) =
        AccountProcessing.runEvents AccountProcessing.init events := by
  intro events e hl hfresh
  rw [runEvents_append]
  have hsome : ¬ (lookupMap (AccountProcessing.runEvents AccountProcessing.init
      events).transaction_amount e.transaction_id).isSome = true := by
    intro h
    rcases (runEvents_ledger_isSome events _ _).mp h with h1 | ⟨e1, he1, hne, htx⟩
    · simp [AccountProcessing.init, lookupMap] at h1
    · exact hfresh e1 he1 ((needs_lookup_false_iff _).mp hne) htx
  have hnone : lookupMap (AccountProcessing.runEvents AccountProcessing.init
      events).transaction_amount e.transaction_id = none :=
    Option.not_isSome_iff_eq_none.mp (by simpa using hsome)
  have hinv : (AccountProcessing.runEvents AccountProcessing.init
      events).dispute_action_with_invalid_transaction e = true := by
    unfold AccountProcessing.dispute_action_with_invalid_transaction
    rw [hl, hnone]
    rfl
  show (AccountProcessing.runEvents AccountProcessing.init events).runStep e = _
  exact runStep_of_invalid _ _ hinv

theorem C4_witness :
    AccountProcessing.runEvents AccountProcessing.init
      ([{ transaction_id := 1, action_type := AccountActions.Deposit,
          client_id := 1, amount := some 50000 }] ++
       [{ transaction_id := 99, action_type := AccountActions.Dispute,
          client_id := 1, amount := none }]) =
      AccountProcessing.runEvents AccountProcessing.init
        [{ transaction_id := 1, action_type := AccountActions.Deposit,
           client_id := 1, amount := some 50000 }] :=
  C4_unknown_reference_noop _ _ rfl (by
    intro e1 he1 hdw
    rcases List.mem_singleton.mp he1 with rfl
    decide)

/-- C5 counterexample: two deposits reusing transaction id 1 (amounts 50000
then 70000).  The claim says the ledger entry keeps the amount of the first
creating event (50000); the code's `BTreeMap::insert` overwrites it with
70000. -/
theorem C5_counterexample :
    lookupMap (AccountProcessing.runEvents AccountProcessing.init
        [{ transaction_id := 1, action_type := AccountActions.Deposit,
           client_id := 1, amount := some 50000 },
         { transaction_id := 1, action_type := AccountActions.Deposit,
           client_id := 1, amount := some 70000 }]).transaction_amount 1 =
      some 70000 ∧
    ¬ lookupMap (AccountProcessing.runEvents AccountProcessing.init
        [{ transaction_id := 1, action_type := AccountActions.Deposit,
           client_id := 1, amount := some 50000 },
         { transaction_id := 1, action_type := AccountActions.Deposit,
           client_id := 1, amount := some 70000 }]).transaction_amount 1 =
      some 50000 := by decide

/-- C5 (amended): a TransactionLedger entry exists iff a deposit or withdrawal
event with that transaction id has been processed; dispute-family events never
create entries; an existing entry is never removed; but a later deposit or
withdrawal reusing the same transaction id overwrites the stored amount with
its own, so the stored amount is that of the most recent creating event. -/
theorem C5_ledger_lifecycle :
    (∀ (evs : List AccountEvent) (t : Int),
        (lookupMap (AccountProcessing.runEvents AccountProcessing.init
          evs).transaction_amount t).isSome = true ↔
        ∃ e, e ∈ evs ∧
          (e.action_type = AccountActions.Deposit ∨
            e.action_type = AccountActions.Withdrawal) ∧
          e.transaction_id = t) ∧
    (∀ (s : AccountProcessing) (e : AccountEvent) (t : Int),
        (lookupMap s.transaction_amount t).isSome = true →
        (lookupMap (s.runStep e).transaction_amount t).isSome = true) ∧
    (∀ (s : AccountProcessing) (e : AccountEvent),
        (e.action_type = AccountActions.Deposit ∨
          e.action_type = AccountActions.Withdrawal) →
        lookupMap (s.runStep e).transaction_amount e.transaction_id =
          some (e.amount.getD 0)) := by
  refine ⟨?_, ?_, ?_⟩
  · intro evs t
    rw [runEvents_ledger_isSome]
    constructor
    · rintro (h | ⟨e, he, hne, htx⟩)
      · simp [AccountProcessing.init, lookupMap] at h
      · exact ⟨e, he, (needs_lookup_false_iff _).mp hne, htx⟩
    · rintro ⟨e, he, hdw, htx⟩
      exact Or.inr ⟨e, he, (needs_lookup_false_iff _).mpr hdw, htx⟩
  · intro s e t h
    rw [runStep_ledger_isSome]
    exact Or.inl h
  · intro s e he
    have hl : event_needs_transaction_lookup e.action_type = false :=
      (needs_lookup_false_iff _).mpr he
    rw [runStep_transaction_amount, if_neg (by simp [hl]), lookupMap_insertMap,
      if_pos rfl]

theorem C5_witness :
    ((lookupMap (AccountProcessing.runEvents AccountProcessing.init
        [{ transaction_id := 4, action_type := AccountActions.Withdrawal,
           client_id := 2, amount := some 30000 }]).transaction_amount 4).isSome
      = true) ∧
    ((lookupMap
        ((AccountProcessing.mk [] [(5, 70000)]).runStep
          { transaction_id := 9, action_type := AccountActions.Deposit,
            client_id := 2, amount := some 10000 }).transaction_amount 5).isSome
      = true) :=
  ⟨(C5_ledger_lifecycle.1
      [{ transaction_id := 4, action_type := AccountActions.Withdrawal,
         client_id := 2, amount := some 30000 }] 4).mpr
      ⟨{ transaction_id := 4, action_type := AccountActions.Withdrawal,
         client_id := 2, amount := some 30000 },
        List.mem_singleton.mpr rfl, Or.inr rfl, rfl⟩,
    C5_ledger_lifecycle.2.1 (AccountProcessing.mk [] [(5, 70000)])
      { transaction_id := 9, action_type := AccountActions.Deposit,
        client_id := 2, amount := some 10000 } 5 (by decide)⟩

/-- C3 counterexample: account with `available = 5`, `held = 0`, `locked =
true` and amount 0 (which satisfies the claim's `a <= available`): dispute
then resolve leaves the account locked, while the claim says the final locked
flag is false in all such cases. -/
theorem C3_counterexample :
    ((0 : Nat) : Int) ≤
      ({ id := 1, available := 5, held := 0, locked := true } :
        ClientAccount).available ∧
    ((({ id := 1, available := 5, held := 0, locked := true } :
        ClientAccount).dispute 0).resolve 0).locked = true := by decide

/-- C3 (amended): for every account state with non-negative `held` and every
amount `a <= available`, dispute(a) then resolve(a) restores `available` and
`held` to their pre-dispute values; the final locked flag is false whenever
`a > 0` or the pre-dispute `held` is positive (so in particular an unlocked
account stays unlocked and a locked account is unlocked); in the remaining
case `a = 0` and `held = 0` both transitions are no-ops and the whole account,
its locked flag included, is unchanged. -/
theorem C3_dispute_resolve :
    ∀ (a : ClientAccount) (amt : Nat),
      0 ≤ a.held → (amt : Int) ≤ a.available →
      (((a.dispute amt).resolve amt).available = a.available ∧
        ((a.dispute amt).resolve amt).held = a.held ∧
        ((a.dispute amt).resolve amt).id = a.id) ∧
      ((0 < amt ∨ 0 < a.held) → ((a.dispute amt).resolve amt).locked = false) ∧
      ((amt = 0 ∧ a.held = 0) → (a.dispute amt).resolve amt = a) := by
  intro a amt hheld havail
  obtain ⟨aid, av, ah, al⟩ := a
  simp only at hheld havail
  unfold ClientAccount.dispute
  rw [if_neg (not_lt.mpr havail)]
  unfold ClientAccount.resolve
  dsimp only
  by_cases hz : ah + (amt : Int) = 0 ∨ ah + (amt : Int) < (amt : Int)
  · rw [if_pos hz]
    have h0 : amt = 0 ∧ ah = 0 := by omega
    obtain ⟨h1, h2⟩ := h0
    subst h1
    subst h2
    refine ⟨⟨by simp, by simp, rfl⟩, ?_, ?_⟩
    · intro h3
      exact absurd h3 (by simp)
    · intro h4
      simp
  · rw [if_neg hz]
    refine ⟨⟨by dsimp only; omega, by dsimp only; omega, rfl⟩,
      fun h3 => rfl, fun h4 => ?_⟩
    exact absurd (Or.inl (by omega)) hz

theorem C3_witness :
    ((0 : Int) ≤ ({ id := 3, available := 40, held := 2, locked := true } :
        ClientAccount).held ∧
      ((7 : Nat) : Int) ≤
        ({ id := 3, available := 40, held := 2, locked := true } :
          ClientAccount).available) ∧
    ((({ id := 3, available := 40, held := 2, locked := true } :
        ClientAccount).dispute 7).resolve 7).available = 40 ∧
    ((({ id := 3, available := 40, held := 2, locked := true } :
        ClientAccount).dispute 7).resolve 7).held = 2 ∧
    ((({ id := 3, available := 40, held := 2, locked := true } :
        ClientAccount).dispute 7).resolve 7).locked = false := by
  have h := C3_dispute_resolve
    { id := 3, available := 40, held := 2, locked := true } 7
    (by decide) (by decide)
  exact ⟨⟨by decide, by decide⟩, h.1.1, h.1.2.1, h.2.1 (Or.inl (by decide))⟩

/-- C6: for every account state (with the `u64`-typing fact `0 <= held`) and
every amount `0 < a <= available`, dispute(a) then chargeback(a) decreases
`held` by `a` relative to the post-dispute state (back to its pre-dispute
value), leaves `available` at its post-dispute value (pre-dispute available
minus `a`), sets `locked`, and changes no other field in the chargeback
step. -/
theorem C6_dispute_chargeback :
    ∀ (a : ClientAccount) (amt : Nat),
      0 ≤ a.held → 0 < amt → (amt : Int) ≤ a.available →
      ((a.dispute amt).charge_back amt).held =
          (a.dispute amt).held - (amt : Int) ∧
      ((a.dispute amt).charge_back amt).held = a.held ∧
      ((a.dispute amt).charge_back amt).available = (a.dispute amt).available ∧
      ((a.dispute amt).charge_back amt).available =
          a.available - (amt : Int) ∧
      ((a.dispute amt).charge_back amt).locked = true ∧
      ((a.dispute amt).charge_back amt).id = (a.dispute amt).id := by
  intro a amt hheld hpos havail
  obtain ⟨aid, av, ah, al⟩ := a
  simp only at hheld havail
  unfold ClientAccount.dispute
  rw [if_neg (not_lt.mpr havail)]
  unfold ClientAccount.charge_back
  dsimp only
  rw [if_neg (by omega :
    ¬(ah + (amt : Int) = 0 ∨ ah + (amt : Int) < (amt : Int)))]
  exact ⟨rfl, by dsimp only; omega, rfl, rfl, rfl, rfl⟩

theorem C6_witness :
    ((0 : Int) ≤ ({ id := 1, available := 50, held := 4, locked := false } :
        ClientAccount).held ∧ 0 < 20 ∧
      ((20 : Nat) : Int) ≤
        ({ id := 1, available := 50, held := 4, locked := false } :
          ClientAccount).available) ∧
    ((({ id := 1, available := 50, held := 4, locked := false } :
        ClientAccount).dispute 20).charge_back 20).held = 4 ∧
    ((({ id := 1, available := 50, held := 4, locked := false } :
        ClientAccount).dispute 20).charge_back 20).available = 30 ∧
    ((({ id := 1, available := 50, held := 4, locked := false } :
        ClientAccount).dispute 20).charge_back 20).locked = true := by
  have h := C6_dispute_chargeback
    { id := 1, available := 50, held := 4, locked := false } 20
    (by decide) (by decide) (by decide)
  refine ⟨⟨by decide, by decide, by decide⟩, h.2.1, ?_, h.2.2.2.2.1⟩
  rw [h.2.2.2.1]
  decide

/-- C7 counterexample: `withdraw 0` on an unlocked account with `available =
5` leaves the state identical, yet the claim's guard `locked or amount >
available` is false, refuting the claimed biconditional at amount 0. -/
theorem C7_counterexample :
    ({ id := 1, available := 5, held := 0, locked := false } :
        ClientAccount).withdraw 0 =
      { id := 1, available := 5, held := 0, locked := false } ∧
    ¬(({ id := 1, available := 5, held := 0, locked := false } :
        ClientAccount).locked = true ∨
      ((0 : Nat) : Int) >
        ({ id := 1, available := 5, held := 0, locked := false } :
          ClientAccount).available) := by decide

/-- C7 (amended): withdraw is a no-op whenever the account is locked or the
amount exceeds `available`; otherwise it decreases `available` by the amount
and leaves `held` and `locked` unchanged; and for every positive amount the
no-op cases are exactly the guarded ones (for amount 0 the applied transition
also leaves the state identical). -/
theorem C7_withdraw_noop :
    ∀ (a : ClientAccount) (amt : Nat),
      ((a.locked = true ∨ (amt : Int) > a.available) → a.withdraw amt = a) ∧
      (¬(a.locked = true ∨ (amt : Int) > a.available) →
        ((a.withdraw amt).available = a.available - (amt : Int) ∧
          (a.withdraw amt).held = a.held ∧
          (a.withdraw amt).locked = a.locked ∧
          (a.withdraw amt).id = a.id)) ∧
      (0 < amt → (a.withdraw amt = a ↔
        (a.locked = true ∨ (amt : Int) > a.available))) := by
  intro a amt
  refine ⟨withdraw_guard_noop a amt, ?_, ?_⟩
  · intro h
    push_neg at h
    exact withdraw_fields a amt (Bool.eq_false_iff.mpr h.1) h.2
  · intro hpos
    constructor
    · intro heq
      by_contra hg
      push_neg at hg
      have hf := withdraw_fields a amt (Bool.eq_false_iff.mpr hg.1) hg.2
      rw [heq] at hf
      have h1 : a.available = a.available - (amt : Int) := hf.1
      omega
    · exact withdraw_guard_noop a amt

theorem C7_witness :
    (({ id := 1, available := 5, held := 2, locked := false } :
        ClientAccount).withdraw 3).available =
      ({ id := 1, available := 5, held := 2, locked := false } :
        ClientAccount).available - ((3 : Nat) : Int) ∧
    ({ id := 9, available := 5, held := 0, locked := true } :
        ClientAccount).withdraw 3 =
      { id := 9, available := 5, held := 0, locked := true } :=
  ⟨((C7_withdraw_noop
      { id := 1, available := 5, held := 2, locked := false } 3).2.1
      (by decide)).1,
    (C7_withdraw_noop
      { id := 9, available := 5, held := 0, locked := true } 3).1
      (Or.inl rfl)⟩

/-- C8 counterexample: `dispute 0` on an account with `available = 5` leaves
the state identical, yet the claim's guard `amount > available` is false,
refuting the claimed biconditional at amount 0. -/
theorem C8_counterexample :
    ({ id := 1, available := 5, held := 0, locked := false } :
        ClientAccount).dispute 0 =
      { id := 1, available := 5, held := 0, locked := false } ∧
    ¬(((0 : Nat) : Int) >
      ({ id := 1, available := 5, held := 0, locked := false } :
        ClientAccount).available) := by decide

/-- C8 (amended): dispute never consults the locked flag (the transition on an
account with any lock value is the same transition with that lock value
carried through); it is a no-op whenever the amount exceeds `available` and
otherwise moves the amount from `available` to `held` leaving `locked`
unchanged; for every positive amount the no-op cases are exactly
`amount > available` (for amount 0 the applied transition also leaves the
state identical). -/
theorem C8_dispute_behavior :
    ∀ (a : ClientAccount) (amt : Nat),
      ((amt : Int) > a.available → a.dispute amt = a) ∧
      ((amt : Int) ≤ a.available →
        ((a.dispute amt).available = a.available - (amt : Int) ∧
          (a.dispute amt).held = a.held + (amt : Int) ∧
          (a.dispute amt).locked = a.locked ∧
          (a.dispute amt).id = a.id)) ∧
      (0 < amt → (a.dispute amt = a ↔ (amt : Int) > a.available)) ∧
      (∀ b : Bool,
        ClientAccount.dispute { a with locked := b } amt =
          { a.dispute amt with locked := b }) := by
  intro a amt
  refine ⟨dispute_guard_noop a amt, dispute_fields a amt, ?_, ?_⟩
  · intro hpos
    constructor
    · intro heq
      by_contra hg
      have hf := dispute_fields a amt (not_lt.mp hg)
      rw [heq] at hf
      have h1 : a.available = a.available - (amt : Int) := hf.1
      omega
    · exact dispute_guard_noop a amt
  · intro b
    unfold ClientAccount.dispute
    dsimp only
    split_ifs
    · rfl
    · rfl

theorem C8_witness :
    (({ id := 4, available := 5, held := 2, locked := true } :
        ClientAccount).dispute 3).available =
      ({ id := 4, available := 5, held := 2, locked := true } :
        ClientAccount).available - ((3 : Nat) : Int) ∧
    (({ id := 4, available := 5, held := 2, locked := true } :
        ClientAccount).dispute 3).held =
      ({ id := 4, available := 5, held := 2, locked := true } :
        ClientAccount).held + ((3 : Nat) : Int) ∧
    ({ id := 4, available := 5, held := 2, locked := false } :
        ClientAccount).dispute 9 =
      { id := 4, available := 5, held := 2, locked := false } := by
  have h := C8_dispute_behavior
    { id := 4, available := 5, held := 2, locked := true } 3
  have h2 := (h.2.1 (by decide))
  exact ⟨h2.1, h2.2.1,
    (C8_dispute_behavior
      { id := 4, available := 5, held := 2, locked := false } 9).1 (by decide)⟩

/-- C10: a deposit or withdrawal event with an absent amount field is applied
with amount 0, so every existing account's balances (and lock flag) are
unchanged, a TransactionLedger entry with value 0 is still inserted for that
transaction id, and a later dispute-family event referencing that id passes
the pre-filter and is applied with amount 0. -/
theorem C10_missing_amount :
    ∀ (s : AccountProcessing) (e : AccountEvent),
      e.amount = none →
      (e.action_type = AccountActions.Deposit ∨
        e.action_type = AccountActions.Withdrawal) →
      (∀ c acct, lookupMap s.accounts c = some acct →
        ∃ acct2, lookupMap (s.runStep e).accounts c = some acct2 ∧
          acct2.available = acct.available ∧ acct2.held = acct.held ∧
          acct2.locked = acct.locked) ∧
      lookupMap (s.runStep e).transaction_amount e.transaction_id = some 0 ∧
      (∀ d : AccountEvent,
        event_needs_transaction_lookup d.action_type = true →
        d.transaction_id = e.transaction_id →
        (s.runStep e).dispute_action_with_invalid_transaction d = false ∧
        lookupMap ((s.runStep e).process_event d).accounts d.client_id =
          some (AccountProcessing.apply
            ((s.runStep e).client_account d.client_id)
            { transaction_id := d.transaction_id, action_type := d.action_type,
              client_id := d.client_id, amount := some 0 })) := by
  intro s e ham hdw
  have hl : event_needs_transaction_lookup e.action_type = false :=
    (needs_lookup_false_iff _).mpr hdw
  have hinv : s.dispute_action_with_invalid_transaction e = false := by
    unfold AccountProcessing.dispute_action_with_invalid_transaction
    rw [hl]
    rfl
  have hledger : lookupMap (s.runStep e).transaction_amount e.transaction_id =
      some 0 := by
    rw [runStep_transaction_amount, if_neg (by simp [hl]), lookupMap_insertMap,
      if_pos rfl, ham]
    rfl
  refine ⟨?_, hledger, ?_⟩
  · intro c acct hacct
    have haccs : (s.runStep e).accounts = (s.process_event e).accounts :=
      runStep_accounts_of_valid s e hinv
    rw [haccs, process_event_direct s e hl]
    dsimp only
    rw [lookupMap_insertMap]
    by_cases hc : e.client_id = c
    · have hclient : s.client_account e.client_id = acct := by
        unfold AccountProcessing.client_account
        rw [hc, hacct]
        rfl
      rw [if_pos hc, hclient]
      have happly := apply_zero_amount acct e ham hdw
      exact ⟨_, rfl, happly.1, happly.2.1, happly.2.2.1⟩
    · rw [if_neg hc, lookup_ensure_account, if_neg (fun h => hc h.symm)]
      exact ⟨acct, hacct, rfl, rfl, rfl⟩
  · intro d hld htx
    have hfilter : (s.runStep e).dispute_action_with_invalid_transaction d =
        false := by
      unfold AccountProcessing.dispute_action_with_invalid_transaction
      rw [hld, htx, hledger]
      rfl
    refine ⟨hfilter, ?_⟩
    have hsub := process_event_subst (s.runStep e) d 0 hld
      (by rw [htx]; exact hledger)
    rw [hsub]
    dsimp only
    rw [lookupMap_insertMap, if_pos rfl]

theorem C10_witness :
    lookupMap ((AccountProcessing.mk
        [(1, { id := 1, available := 100, held := 5, locked := false })]
        []).runStep
      { transaction_id := 8, action_type := AccountActions.Deposit,
        client_id := 1, amount := none }).transaction_amount 8 = some 0 ∧
    ((AccountProcessing.mk
        [(1, { id := 1, available := 100, held := 5, locked := false })]
        []).runStep
      { transaction_id := 8, action_type := AccountActions.Deposit,
        client_id := 1, amount := none }).dispute_action_with_invalid_transaction
      { transaction_id := 8, action_type := AccountActions.Dispute,
        client_id := 1, amount := none } = false :=
  ⟨(C10_missing_amount (AccountProcessing.mk
        [(1, { id := 1, available := 100, held := 5, locked := false })] [])
      { transaction_id := 8, action_type := AccountActions.Deposit,
        client_id := 1, amount := none } rfl (Or.inl rfl)).2.1,
    ((C10_missing_amount (AccountProcessing.mk
        [(1, { id := 1, available := 100, held := 5, locked := false })] [])
      { transaction_id := 8, action_type := AccountActions.Deposit,
        client_id := 1, amount := none } rfl (Or.inl rfl)).2.2
      { transaction_id := 8, action_type := AccountActions.Dispute,
        client_id := 1, amount := none } (by decide) rfl).1⟩
